import Mathlib

/-!
Shallow embedding of `src/commands/kv/mod.rs` of the wrangler repository:
the binding resolver (`check_duplicate_namespaces`, `get_namespace_id`),
the error translator (`format_error`, `print_status_code_context`, `help`),
the confirmation gate (`interactive_delete`), the key encoder
(`url_encode_key`) and the target validator (`validate_target`),
together with theorems settling the spec claims about them.

Rust `String` values are modelled by Lean `String`; byte-level behaviour
(UTF-8 sizes in `String::truncate`, `str::as_bytes` for percent-encoding)
is modelled explicitly where it matters. Fallible Rust functions returning
`Result<_, failure::Error>` are modelled with `Except`, the error carrying
the data of the corresponding `failure::bail!` site; a possible Rust panic
is modelled by `Option` with `none` for the panic.
-/

namespace Wrangler

/-- Modelled from the spec: `NamespaceBinding` of the data model
(`settings/target.rs` is not part of the excerpt). Fields as used by the
kv module and its tests: remote `id`, local `binding` name, optional
`bucket` path. -/
structure KvNamespace where
  id : String
  binding : String
  bucket : Option String
deriving DecidableEq

/-- Modelled from the spec: `Target` of the data model
(`settings/target.rs` is not part of the excerpt). Only the fields the kv
module reads: `account_id`, the optional ordered `kv_namespaces` list, and
the target `name`. -/
structure Target where
  account_id : String
  kv_namespaces : Option (List KvNamespace)
  name : String
deriving DecidableEq

/-- The two `failure::bail!` sites of `get_namespace_id`, kept as data so
theorems can tell them apart; `render` below produces the exact Rust
format strings. -/
inductive KvError where
  | duplicateBinding (binding targetName : String)
  | notFound (binding targetName : String)
deriving DecidableEq

/-- The message text of the two `failure::bail!` format strings in
`get_namespace_id`. -/
def KvError.render : KvError → String
  | .duplicateBinding b t =>
      "Namespace binding \"" ++ b ++ "\" is duplicated in \"" ++ t ++ "\""
  | .notFound b t =>
      "Namespace binding \"" ++ b ++ "\" not found in \"" ++ t ++ "\""

/-- The loop body of `check_duplicate_namespaces`: walk the namespace
list keeping the set of binding names already seen (the Rust
`HashSet<String>` is modelled by a list with membership tests), returning
`true` at the first repeated name. -/
def dupScan (binding_names : List String) : List KvNamespace → Bool
  | [] => false
  | ns :: namespaces =>
    if ns.binding ∈ binding_names then true
    else dupScan (ns.binding :: binding_names) namespaces

/-- `check_duplicate_namespaces` from `src/commands/kv/mod.rs`: `true` iff
the target's namespace list (when present) repeats a binding name. -/
def check_duplicate_namespaces (target : Target) : Bool :=
  match target.kv_namespaces with
  | some namespaces => dupScan [] namespaces
  | none => false

/-- The matching loop of `get_namespace_id`: first namespace whose
`binding` equals the requested name, returning its `id`. -/
def find_binding (binding : String) : List KvNamespace → Option String
  | [] => none
  | ns :: namespaces =>
    if ns.binding = binding then some ns.id else find_binding binding namespaces

/-- `get_namespace_id` from `src/commands/kv/mod.rs`: duplicate check
first, unconditionally; then linear scan for the binding; `NotFound`
otherwise (also when `kv_namespaces` is `None`). -/
def get_namespace_id (target : Target) (binding : String) : Except KvError String :=
  if check_duplicate_namespaces target then
    .error (.duplicateBinding binding target.name)
  else
    match target.kv_namespaces with
    | some namespaces =>
      match find_binding binding namespaces with
      | some id => .ok id
      | none => .error (.notFound binding target.name)
    | none => .error (.notFound binding target.name)

/-- The binding names of a target's namespace list, in order ([] when the
list is absent). -/
def bindingNames (target : Target) : List String :=
  (target.kv_namespaces.getD []).map KvNamespace.binding

theorem dupScan_eq_false_iff (l : List KvNamespace) (seen : List String) :
    dupScan seen l = false ↔
      (l.map KvNamespace.binding).Nodup ∧
        ∀ n ∈ l.map KvNamespace.binding, n ∉ seen := by
  induction l generalizing seen with
  | nil => simp [dupScan]
  | cons ns l ih =>
    by_cases hmem : ns.binding ∈ seen
    · simp only [dupScan, if_pos hmem]
      constructor
      · intro h; exact absurd h (by simp)
      · rintro ⟨-, h2⟩
        exact absurd hmem (h2 ns.binding (by simp))
    · simp only [dupScan, if_neg hmem, ih, List.map_cons, List.nodup_cons,
        List.mem_cons, List.mem_map]
      constructor
      · rintro ⟨hnd, hall⟩
        refine ⟨⟨?_, hnd⟩, ?_⟩
        · rintro ⟨e, he, heq⟩
          have := hall ns.binding ⟨e, he, heq⟩
          simp at this
        · rintro n (rfl | hn)
          · exact hmem
          · have := hall n hn
            simp at this
            exact this.2
      · rintro ⟨⟨hhead, hnd⟩, hall⟩
        refine ⟨hnd, ?_⟩
        intro n hn
        simp only [List.mem_cons, not_or]
        constructor
        · rintro rfl
          exact hhead (by simpa using hn)
        · exact hall n (Or.inr hn)

theorem check_duplicate_namespaces_eq_false_iff (target : Target) :
    check_duplicate_namespaces target = false ↔ (bindingNames target).Nodup := by
  cases h : target.kv_namespaces with
  | none => simp [check_duplicate_namespaces, bindingNames, h]
  | some l =>
    simp [check_duplicate_namespaces, bindingNames, h, dupScan_eq_false_iff]

theorem find_binding_eq_none (B : String) (l : List KvNamespace)
    (h : ∀ e ∈ l, e.binding ≠ B) : find_binding B l = none := by
  induction l with
  | nil => rfl
  | cons ns l ih =>
    simp only [find_binding, if_neg (h ns (by simp))]
    exact ih fun e he => h e (by simp [he])

theorem find_binding_unique (B : String) (l : List KvNamespace) (e : KvNamespace)
    (hnd : (l.map KvNamespace.binding).Nodup) (he : e ∈ l) (hb : e.binding = B) :
    find_binding B l = some e.id := by
  induction l with
  | nil => cases he
  | cons ns l ih =>
    simp only [List.map_cons, List.nodup_cons, List.mem_map] at hnd
    rcases List.mem_cons.mp he with rfl | he'
    · simp [find_binding, hb]
    · have hne : ns.binding ≠ B := by
        rintro rfl
        exact hnd.1 ⟨e, he', hb⟩
      simp only [find_binding, if_neg hne]
      exact ih hnd.2 he'

/-- C1: if a target's namespace list repeats a binding name, then for
every requested binding name (present, absent, or empty) `get_namespace_id`
returns the duplicate-binding error naming the requested binding and the
target; the duplicate check precedes any matching, so no id is returned. -/
theorem get_namespace_id_duplicate (target : Target) (binding : String)
    (h : ¬ (bindingNames target).Nodup) :
    get_namespace_id target binding = .error (.duplicateBinding binding target.name) := by
  have hc : check_duplicate_namespaces target = true := by
    rcases hb : check_duplicate_namespaces target with _ | _
    · exact absurd ((check_duplicate_namespaces_eq_false_iff target).mp hb) h
    · rfl
  simp [get_namespace_id, hc]

theorem get_namespace_id_duplicate_witness :
    ¬ (bindingNames
        ⟨"", some [⟨"fake", "KV", none⟩, ⟨"fake", "KV", none⟩], "test-target"⟩).Nodup ∧
      get_namespace_id
        ⟨"", some [⟨"fake", "KV", none⟩, ⟨"fake", "KV", none⟩], "test-target"⟩ "" =
        .error (.duplicateBinding "" "test-target") :=
  ⟨by decide, get_namespace_id_duplicate _ "" (by decide)⟩

/-- C6: in a target with no duplicate binding names whose list contains a
binding entry named `B` with id `"fake"`, resolving `B` returns exactly
`Ok "fake"`. -/
theorem get_namespace_id_found (target : Target) (namespaces : List KvNamespace)
    (e : KvNamespace) (B : String)
    (hns : target.kv_namespaces = some namespaces)
    (hnd : (bindingNames target).Nodup)
    (he : e ∈ namespaces) (hb : e.binding = B) (hid : e.id = "fake") :
    get_namespace_id target B = .ok "fake" := by
  have hc : check_duplicate_namespaces target = false :=
    (check_duplicate_namespaces_eq_false_iff target).mpr hnd
  have hnd' : (namespaces.map KvNamespace.binding).Nodup := by
    simpa [bindingNames, hns] using hnd
  simp [get_namespace_id, hc, hns, find_binding_unique B namespaces e hnd' he hb, hid]

theorem get_namespace_id_found_witness :
    (⟨"acct", some [⟨"fake", "KV", none⟩], "t"⟩ : Target).kv_namespaces =
        some [⟨"fake", "KV", none⟩] ∧
      (bindingNames ⟨"acct", some [⟨"fake", "KV", none⟩], "t"⟩).Nodup ∧
      (⟨"fake", "KV", none⟩ : KvNamespace) ∈ [(⟨"fake", "KV", none⟩ : KvNamespace)] ∧
      (⟨"fake", "KV", none⟩ : KvNamespace).binding = "KV" ∧
      (⟨"fake", "KV", none⟩ : KvNamespace).id = "fake" ∧
      get_namespace_id ⟨"acct", some [⟨"fake", "KV", none⟩], "t"⟩ "KV" = .ok "fake" :=
  ⟨rfl, by decide, by decide, rfl, rfl,
    get_namespace_id_found _ _ ⟨"fake", "KV", none⟩ "KV" rfl (by decide) (by decide) rfl rfl⟩

/-- C7: in a target with no duplicate binding names in which no entry is
named `B` (including an absent namespace list), `get_namespace_id`
returns the not-found error naming the binding and the target, never a
fabricated id; `KvError.render` shows the error names both. -/
theorem get_namespace_id_not_found (target : Target) (B : String)
    (hnd : (bindingNames target).Nodup)
    (habs : ∀ e ∈ target.kv_namespaces.getD [], e.binding ≠ B) :
    get_namespace_id target B = .error (.notFound B target.name) ∧
      (KvError.notFound B target.name).render =
        "Namespace binding \"" ++ B ++ "\" not found in \"" ++ target.name ++ "\"" := by
  have hc : check_duplicate_namespaces target = false :=
    (check_duplicate_namespaces_eq_false_iff target).mpr hnd
  refine ⟨?_, rfl⟩
  cases hns : target.kv_namespaces with
  | none => simp [get_namespace_id, hc, hns]
  | some l =>
    have : find_binding B l = none :=
      find_binding_eq_none B l (by simpa [hns] using habs)
    simp [get_namespace_id, hc, hns, this]

theorem get_namespace_id_not_found_witness :
    (bindingNames ⟨"acct", none, "t"⟩).Nodup ∧
      (∀ e ∈ (Target.mk "acct" none "t").kv_namespaces.getD [], e.binding ≠ "KV") ∧
      get_namespace_id ⟨"acct", none, "t"⟩ "KV" = .error (.notFound "KV" "t") :=
  ⟨by decide, by decide,
    (get_namespace_id_not_found ⟨"acct", none, "t"⟩ "KV" (by decide) (by decide)).1⟩

/-- Modelled from the spec: `emoji::WARN` (`terminal/emoji.rs` is not part
of the excerpt; styling is out of scope). Only its newline-freeness
matters to the claims. -/
def WARN : String := "⚠️"

/-- Modelled from the spec: `emoji::SLEUTH` (`terminal/emoji.rs` is not
part of the excerpt; styling is out of scope). -/
def SLEUTH : String := "🕵️"

/-- Modelled from the spec: one `(numeric code, message)` pair of a
structured remote failure (the `cloudflare` crate's `ApiError`; the crate
is not part of the excerpt). The `u16` code is a `Nat`. -/
structure ApiError where
  code : Nat
  message : String
deriving DecidableEq

/-- Modelled from the spec: the ordered error sequence of a structured
remote failure (the `cloudflare` crate's `ApiErrors`, as consumed by
`format_error`). -/
structure ApiErrors where
  errors : List ApiError
deriving DecidableEq

/-- Modelled from the spec: `RemoteFailure` — the `cloudflare` crate's
`ApiFailure`: either a structured failure (HTTP status, here a `Nat`,
plus error pairs) or a transport-level failure carrying a description. -/
inductive ApiFailure where
  | Error (status : Nat) (api_errors : ApiErrors)
  | Invalid (reqwest_err : String)
deriving DecidableEq

/-- `help` from `src/commands/kv/mod.rs`: the static advisory table from
numeric error code to suggestion, `""` for unmapped codes. -/
def help (error_code : Nat) : String :=
  match error_code with
  | 7003 | 7000 =>
      "Your wrangler.toml is likely missing the field \"account_id\", which is required to write to Workers KV."
  | 10010 | 10011 | 10012 | 10013 | 10014 | 10018 =>
      "Run `wrangler kv:namespace list` to see your existing namespaces with IDs"
  | 10009 => "Run `wrangler kv:key list` to see your existing keys"
  | 10022 | 10024 | 10030 => "See documentation"
  | 10021 | 10035 | 10038 => "Consider moving this namespace"
  | 10017 | 10026 =>
      "Workers KV is a paid feature, please upgrade your account (https://www.cloudflare.com/products/workers-kv/)"
  | _ => ""

/-- `print_status_code_context` from `src/commands/kv/mod.rs`. It prints
via `message::warn` and returns `()`; the warning it emits (if any) is
modelled as the returned `Option String`. `StatusCode` is its numeric
value. -/
def print_status_code_context (status_code : Nat) : Option String :=
  if status_code = 413 then
    some "Returned status code 413, Payload Too Large. Please make sure your upload is less than 100MB in size"
  else if status_code = 504 then
    some "Returned status code 504, Gateway Timeout. Please try again in a few seconds"
  else none

/-- The `error_msg` line of `format_error`:
`format!("{} Error {}: {}\n", emoji::WARN, error.code, error.message)`
(`Nat.repr` is the decimal rendering of the code). -/
def errorLine (error : ApiError) : String :=
  WARN ++ " Error " ++ Nat.repr error.code ++ ": " ++ error.message ++ "\n"

/-- The `help_msg` line of `format_error`:
`format!("{} {}\n", emoji::SLEUTH, suggestion)`. -/
def helpLine (suggestion : String) : String :=
  SLEUTH ++ " " ++ suggestion ++ "\n"

/-- The `for error in api_errors.errors` loop of `format_error`,
accumulating into `complete_err`. -/
def formatLoop (complete_err : String) : List ApiError → String
  | [] => complete_err
  | error :: errors =>
    let error_msg := errorLine error
    let suggestion := help error.code
    if !suggestion.isEmpty then
      formatLoop (complete_err ++ (error_msg ++ helpLine suggestion)) errors
    else
      formatLoop (complete_err ++ error_msg) errors

/-- `format_error` from `src/commands/kv/mod.rs`. The Rust function
returns a `String` and, in the structured case, first calls
`print_status_code_context` which prints a warning to the terminal; the
pair models both channels: first the warning emitted on the terminal (if
any), second the returned string. -/
def format_error : ApiFailure → Option String × String
  | .Error status api_errors =>
    (print_status_code_context status, formatLoop "" api_errors.errors)
  | .Invalid reqwest_err => (none, WARN ++ " Error: " ++ reqwest_err)

/-- What one `(code, message)` pair contributes to `complete_err`: its
message line, followed by an advisory line exactly when the code is
mapped in the `help` table. -/
def lineOf (error : ApiError) : String :=
  if !(help error.code).isEmpty then errorLine error ++ helpLine (help error.code)
  else errorLine error

/-- Concatenation of the per-error contributions, in sequence order. -/
def errorLines : List ApiError → String
  | [] => ""
  | error :: errors => lineOf error ++ errorLines errors

/-- Number of newline characters; every emitted line ends with `"\n"`, so
this counts the lines of `format_error`'s output. -/
def newlineCount (s : String) : Nat := s.data.count '\n'

theorem formatLoop_eq (l : List ApiError) (s : String) :
    formatLoop s l = s ++ errorLines l := by
  induction l generalizing s with
  | nil => simp [formatLoop, errorLines, String.append_empty]
  | cons e es ih =>
    simp only [formatLoop, errorLines, lineOf]
    by_cases h : (help e.code).isEmpty
    · simp [h, ih, String.append_assoc]
    · simp [h, ih, String.append_assoc]

theorem isEmpty_empty_string : ("" : String).isEmpty = true := rfl

theorem newlineCount_append (a b : String) :
    newlineCount (a ++ b) = newlineCount a + newlineCount b := by
  simp [newlineCount, String.data_append, List.count_append]

theorem newline_not_mem_toDigitsCore (fuel n : Nat) (ds : List Char)
    (hds : '\n' ∉ ds) : '\n' ∉ Nat.toDigitsCore 10 fuel n ds := by
  induction fuel generalizing n ds with
  | zero => simpa [Nat.toDigitsCore] using hds
  | succ fuel ih =>
    have hd : Nat.digitChar (n % 10) ≠ '\n' := by
      have h10 : n % 10 < 10 := Nat.mod_lt _ (by omega)
      have : ∀ k < 10, Nat.digitChar k ≠ '\n' := by decide
      exact this _ h10
    simp only [Nat.toDigitsCore]
    split
    · simp only [List.mem_cons, not_or]
      exact ⟨fun h => hd h.symm, hds⟩
    · exact ih _ _ (by
        simp only [List.mem_cons, not_or]
        exact ⟨fun h => hd h.symm, hds⟩)

theorem newline_not_mem_repr (n : Nat) : '\n' ∉ (Nat.repr n).data := by
  have : '\n' ∉ Nat.toDigits 10 n :=
    newline_not_mem_toDigitsCore _ _ _ (by simp)
  simpa [Nat.repr, List.asString] using this

theorem newlineCount_errorLine (e : ApiError) (hm : '\n' ∉ e.message.data) :
    newlineCount (errorLine e) = 1 := by
  simp only [errorLine, newlineCount_append]
  have h1 : newlineCount WARN = 0 := by decide
  have h2 : newlineCount " Error " = 0 := by decide
  have h3 : newlineCount (Nat.repr e.code) = 0 :=
    List.count_eq_zero.mpr (newline_not_mem_repr e.code)
  have h4 : newlineCount ": " = 0 := by decide
  have h5 : newlineCount e.message = 0 := List.count_eq_zero.mpr hm
  have h6 : newlineCount "\n" = 1 := by decide
  omega

set_option maxRecDepth 8192 in
/-- C2 (counterexample): a structured failure with exactly two
(code, message) pairs whose shared code 7003 is mapped in the advisory
table yields four lines, not two — each pair contributes its message
line plus an advisory line. -/
theorem format_error_two_errors_cex :
    ([⟨7003, "m1"⟩, ⟨7003, "m2"⟩] : List ApiError).length = 2 ∧
      newlineCount
        ((format_error (.Error 200 ⟨[⟨7003, "m1"⟩, ⟨7003, "m2"⟩]⟩)).2) ≠ 2 := by
  constructor
  · rfl
  · decide

set_option maxRecDepth 8192 in
/-- C2 (amended): for a structured failure carrying exactly two
(code, message) pairs whose codes are unmapped in the advisory table and
whose messages contain no newline, the returned string is the first
pair's line followed by the second pair's line — exactly two lines, in
the order of the pairs; a mapped code contributes one additional advisory
line after its message line. -/
theorem format_error_two_errors (status : Nat) (e1 e2 : ApiError)
    (h1 : help e1.code = "") (h2 : help e2.code = "")
    (hm1 : '\n' ∉ e1.message.data) (hm2 : '\n' ∉ e2.message.data) :
    (format_error (.Error status ⟨[e1, e2]⟩)).2 = errorLine e1 ++ errorLine e2 ∧
      newlineCount ((format_error (.Error status ⟨[e1, e2]⟩)).2) = 2 := by
  have hout : (format_error (.Error status ⟨[e1, e2]⟩)).2 = errorLine e1 ++ errorLine e2 := by
    simp [format_error, formatLoop, h1, h2, String.empty_append, isEmpty_empty_string]
  refine ⟨hout, ?_⟩
  rw [hout, newlineCount_append, newlineCount_errorLine e1 hm1,
    newlineCount_errorLine e2 hm2]

theorem format_error_two_errors_witness :
    help (1 : Nat) = "" ∧ '\n' ∉ ("m1" : String).data ∧ '\n' ∉ ("m2" : String).data ∧
      ((format_error (.Error 200 ⟨[⟨1, "m1"⟩, ⟨2, "m2"⟩]⟩)).2 =
          errorLine ⟨1, "m1"⟩ ++ errorLine ⟨2, "m2"⟩ ∧
        newlineCount ((format_error (.Error 200 ⟨[⟨1, "m1"⟩, ⟨2, "m2"⟩]⟩)).2) = 2) :=
  ⟨rfl, by decide, by decide,
    format_error_two_errors 200 ⟨1, "m1"⟩ ⟨2, "m2"⟩ rfl rfl (by decide) (by decide)⟩

/-- C3: on a structured failure with HTTP status 413, `format_error`
emits (via `message::warn`, the first component) exactly the
payload-too-large advisory, and returns the concatenated per-error lines
of the failure's pairs. -/
theorem format_error_payload_too_large (api_errors : ApiErrors) :
    format_error (.Error 413 api_errors) =
      (some "Returned status code 413, Payload Too Large. Please make sure your upload is less than 100MB in size",
        errorLines api_errors.errors) := by
  cases api_errors with
  | mk errors =>
    simp [format_error, print_status_code_context, formatLoop_eq, String.empty_append]

/-- C8: the string `format_error` returns for a structured failure is the
concatenation, in order, of one contribution per (code, message) pair;
a pair with an unmapped code contributes its message line only; and code
7003 is mapped to the account-id advisory. The Lean function is total by
construction, matching "never throws". -/
theorem format_error_per_error_lines (status : Nat) (api_errors : ApiErrors) :
    (format_error (.Error status api_errors)).2 = errorLines api_errors.errors ∧
      (∀ e : ApiError, help e.code = "" → lineOf e = errorLine e) ∧
      help 7003 =
        "Your wrangler.toml is likely missing the field \"account_id\", which is required to write to Workers KV." := by
  refine ⟨?_, ?_, rfl⟩
  · cases api_errors with
    | mk errors => simp [format_error, formatLoop_eq, String.empty_append]
  · intro e he
    simp [lineOf, he, isEmpty_empty_string]

theorem format_error_per_error_lines_witness :
    help 12345 = "" ∧ lineOf ⟨12345, "m"⟩ = errorLine ⟨12345, "m"⟩ :=
  ⟨rfl, (format_error_per_error_lines 200 ⟨[]⟩).2.1 ⟨12345, "m"⟩ rfl⟩

/-- C10: for a structured failure with an empty error sequence the string
`format_error` returns is empty, whatever the HTTP status code; any
status-derived advisory goes to the terminal channel, never into the
returned value. -/
theorem format_error_no_errors (status : Nat) :
    (format_error (.Error status ⟨[]⟩)).2 = "" := rfl

/-- The Unicode White_Space code points: the characters Rust's
`str::split_whitespace` splits on. -/
def rustWhitespaceCodes : List Nat :=
  [0x09, 0x0A, 0x0B, 0x0C, 0x0D, 0x20, 0x85, 0xA0, 0x1680,
   0x2000, 0x2001, 0x2002, 0x2003, 0x2004, 0x2005, 0x2006, 0x2007,
   0x2008, 0x2009, 0x200A, 0x2028, 0x2029, 0x202F, 0x205F, 0x3000]

/-- Rust's `char::is_whitespace`. -/
def isRustWhitespace (c : Char) : Bool := c.toNat ∈ rustWhitespaceCodes

/-- Rust's `u8::to_ascii_lowercase` lifted to chars, as applied
characterwise by `String::make_ascii_lowercase`. -/
def asciiLower (c : Char) : Char :=
  if 'A' ≤ c ∧ c ≤ 'Z' then Char.ofNat (c.toNat + 32) else c

/-- Rust's byte-level `String::truncate`: keep whole characters while
their UTF-8 sizes fit in `n` bytes; if `n` falls strictly inside a
character (and the string is longer than `n` bytes) Rust panics, modelled
by `none`; if `n` is at least the byte length the string is unchanged. -/
def truncateUtf8 : List Char → Nat → Option (List Char)
  | _, 0 => some []
  | [], _ => some []
  | c :: cs, n + 1 =>
    if c.utf8Size ≤ n + 1 then
      (truncateUtf8 cs (n + 1 - c.utf8Size)).map (c :: ·)
    else none

/-- `INTERACTIVE_RESPONSE_LEN` from `src/commands/kv/mod.rs`. -/
def INTERACTIVE_RESPONSE_LEN : Nat := 1

/-- `YES` from `src/commands/kv/mod.rs`. -/
def YES : String := "y"

/-- `NO` from `src/commands/kv/mod.rs`. -/
def NO : String := "n"

/-- `interactive_delete` from `src/commands/kv/mod.rs`. The argument is
the raw stdin contents; `read!("{}\n")` yields the text before the first
newline. `split_whitespace().collect()` removes every whitespace
character, `make_ascii_lowercase` lowercases in place, and
`response.truncate(INTERACTIVE_RESPONSE_LEN)` truncates to one byte —
`none` models the Rust panic when byte index 1 is not a char boundary.
The prompt printing does not affect the result and is omitted. -/
def interactive_delete (input : String) : Option (Except String Bool) :=
  let response := input.data.takeWhile (fun c => c ≠ '\n')
  let response := response.filter (fun c => !isRustWhitespace c)
  let response := response.map asciiLower
  match truncateUtf8 response INTERACTIVE_RESPONSE_LEN with
  | none => none
  | some response =>
    if String.mk response = YES then some (.ok true)
    else if String.mk response = NO then some (.ok false)
    else some (.error "Response must either be \"y\" for yes or \"n\" for no")

/-- C4: the documented behaviours of `interactive_delete` hold — the
raw input `" YES \n"` confirms, `"NO"` declines, `"maybe"` and the empty
line fail with the input error, and `"yup"` is accepted because only the
first character is compared — but an input whose normalized form starts
with a multibyte character, such as `"é"`, makes the byte-level
`truncate(1)` panic instead of returning the input error. -/
theorem interactive_delete_cases :
    interactive_delete " YES \n" = some (.ok true) ∧
      interactive_delete "NO\n" = some (.ok false) ∧
      interactive_delete "maybe\n" =
        some (.error "Response must either be \"y\" for yes or \"n\" for no") ∧
      interactive_delete "\n" =
        some (.error "Response must either be \"y\" for yes or \"n\" for no") ∧
      interactive_delete "yup\n" = some (.ok true) ∧
      interactive_delete "é\n" = none :=
  ⟨rfl, rfl, rfl, rfl, rfl, rfl⟩

/-- Rendering of Rust's `{:?}` for the `Vec<&str>` of missing field
names in `validate_target`. -/
def renderFields (fields : List String) : String :=
  "[" ++ String.intercalate ", " (fields.map (fun f => "\"" ++ f ++ "\"")) ++ "]"

/-- `validate_target` from `src/commands/kv/mod.rs`: collect the missing
required fields (currently only a non-empty `account_id`) and fail
listing all of them, else succeed. Pure: no side effects, no remote
calls. -/
def validate_target (target : Target) : Except String Unit :=
  let missing_fields : List String :=
    if target.account_id.isEmpty then ["account_id"] else []
  if !missing_fields.isEmpty then
    .error ("Your wrangler.toml is missing the following field(s): " ++
      renderFields missing_fields)
  else
    .ok ()

/-- C5: `validate_target` fails exactly when `account_id` is empty, and
then its error message lists the field name `account_id`; for any
non-empty `account_id` it returns success. -/
theorem validate_target_account_id (target : Target) :
    validate_target target =
      if target.account_id = "" then
        .error "Your wrangler.toml is missing the following field(s): [\"account_id\"]"
      else .ok () := by
  by_cases h : target.account_id = ""
  · simp only [validate_target, h, isEmpty_empty_string, if_pos rfl]
    rfl
  · have hne : target.account_id.isEmpty = false := by
      rcases he : target.account_id.isEmpty with _ | _
      · rfl
      · exact absurd ((String.isEmpty_iff _).mp he) h
    simp [validate_target, hne, h]

/-- The byte set of `percent_encoding::PATH_SEGMENT_ENCODE_SET` as used
by the repo: C0 controls and bytes above `0x7E` (the simple set), plus
space, `"`, `#`, `<`, `>` (query set), plus backquote, `?` and the curly
brackets (default set), plus `%` and `/` (path-segment set). -/
def PATH_SEGMENT_ENCODE_SET (b : Nat) : Bool :=
  decide (b < 0x20) || decide (0x7E < b) ||
    b ∈ [0x20, 0x22, 0x23, 0x3C, 0x3E, 0x60, 0x3F, 0x7B, 0x7D, 0x25, 0x2F]

/-- Uppercase hexadecimal digit, as emitted by the percent-encoding
crate. -/
def hexUpper (n : Nat) : Char :=
  if n < 10 then Char.ofNat (48 + n) else Char.ofNat (55 + n)

/-- `percent_encoding::percent_encode` over the byte sequence of the key:
a byte in the encode set becomes `%` followed by its two uppercase hex
digits; any other byte passes through as its ASCII character. -/
def percent_encode : List Nat → List Char
  | [] => []
  | b :: bs =>
    if PATH_SEGMENT_ENCODE_SET b then
      '%' :: hexUpper (b / 16) :: hexUpper (b % 16) :: percent_encode bs
    else
      Char.ofNat b :: percent_encode bs

/-- `url_encode_key` from `src/commands/kv/mod.rs`; `key` is
`key.as_bytes()`, the UTF-8 byte sequence of the Rust `&str`. -/
def url_encode_key (key : List Nat) : String := String.mk (percent_encode key)

/-- Uppercase-hex-digit test used by the decoder. -/
def isHexUpperDigit (c : Char) : Bool :=
  ('0' ≤ c && c ≤ '9') || ('A' ≤ c && c ≤ 'F')

/-- Value of an uppercase hex digit. -/
def hexVal (c : Char) : Nat :=
  if c ≤ '9' then c.toNat - 48 else c.toNat - 55

/-- Percent-decoding (the inverse direction of the round-trip claim): a
`%` must be followed by two uppercase hex digits and decodes to that
byte; any other character stands for its own code point. -/
def percent_decode : List Char → Option (List Nat)
  | [] => some []
  | c :: cs =>
    if c = '%' then
      match cs with
      | h :: l :: rest =>
        if isHexUpperDigit h && isHexUpperDigit l then
          (percent_decode rest).map (fun bs => (hexVal h * 16 + hexVal l) :: bs)
        else none
      | _ => none
    else
      (percent_decode cs).map (fun bs => c.toNat :: bs)

theorem percent_decode_cons_of_ne {c : Char} (hc : ¬ c = '%') (cs : List Char) :
    percent_decode (c :: cs) = (percent_decode cs).map (fun bs => c.toNat :: bs) := by
  rcases cs with _ | ⟨d, _ | ⟨e, rest⟩⟩
  · simp [percent_decode, hc]
  · simp [percent_decode, hc]
  · simp [percent_decode, hc]

theorem percent_decode_esc (h l : Char) (rest : List Char)
    (hh : isHexUpperDigit h = true) (hl : isHexUpperDigit l = true) :
    percent_decode ('%' :: h :: l :: rest) =
      (percent_decode rest).map (fun bs => (hexVal h * 16 + hexVal l) :: bs) := by
  rw [percent_decode, if_pos rfl]
  simp [hh, hl]

theorem hexUpper_spec (n : Nat) (h : n < 16) :
    isHexUpperDigit (hexUpper n) = true ∧ hexVal (hexUpper n) = n ∧
      hexUpper n ≠ '/' := by
  have : ∀ k < 16, isHexUpperDigit (hexUpper k) = true ∧ hexVal (hexUpper k) = k ∧
      hexUpper k ≠ '/' := by decide
  exact this n h

set_option maxRecDepth 2048 in
theorem unencoded_byte_spec (b : Nat) (hb : b < 256)
    (hset : PATH_SEGMENT_ENCODE_SET b = false) :
    Char.ofNat b ≠ '%' ∧ Char.ofNat b ≠ '/' ∧ (Char.ofNat b).toNat = b := by
  have : ∀ k < 256, PATH_SEGMENT_ENCODE_SET k = false →
      Char.ofNat k ≠ '%' ∧ Char.ofNat k ≠ '/' ∧ (Char.ofNat k).toNat = k := by decide
  exact this b hb hset

/-- C9: for every key (given by its UTF-8 bytes), the encoded string
contains no literal `/` — in particular when the key itself contains
`/` — and percent-decoding the encoded string recovers the key's bytes
exactly, hence the original key. -/
theorem url_encode_key_roundtrip (key : List Nat) (h : ∀ b ∈ key, b < 256) :
    '/' ∉ (url_encode_key key).data ∧
      percent_decode (url_encode_key key).data = some key := by
  show '/' ∉ percent_encode key ∧ percent_decode (percent_encode key) = some key
  induction key with
  | nil => exact ⟨by simp [percent_encode], rfl⟩
  | cons b bs ih =>
    have hb : b < 256 := h b (by simp)
    have hbs : ∀ x ∈ bs, x < 256 := fun x hx => h x (by simp [hx])
    obtain ⟨ih1, ih2⟩ := ih hbs
    by_cases hset : PATH_SEGMENT_ENCODE_SET b = true
    · have hhi := hexUpper_spec (b / 16) (by omega)
      have hlo := hexUpper_spec (b % 16) (Nat.mod_lt _ (by omega))
      constructor
      · simp only [percent_encode, hset, if_true, List.mem_cons, not_or]
        exact ⟨by decide, fun hc => hhi.2.2 hc.symm, fun hc => hlo.2.2 hc.symm, ih1⟩
      · simp only [percent_encode, hset, if_true]
        rw [percent_decode_esc _ _ _ hhi.1 hlo.1, ih2]
        have e1 := hhi.2.1
        have e2 := hlo.2.1
        simp only [Option.map_some']
        congr 2
        omega
    · have hset' : PATH_SEGMENT_ENCODE_SET b = false := by
        rcases hx : PATH_SEGMENT_ENCODE_SET b with _ | _
        · rfl
        · exact absurd hx hset
      obtain ⟨hpc, hsl, htn⟩ := unencoded_byte_spec b hb hset'
      constructor
      · simp only [percent_encode, hset', if_false, List.mem_cons, not_or,
          Bool.false_eq_true]
        exact ⟨fun hc => hsl hc.symm, ih1⟩
      · simp only [percent_encode, hset', if_false, Bool.false_eq_true]
        rw [percent_decode_cons_of_ne hpc, ih2]
        simp [htn]

theorem url_encode_key_roundtrip_witness :
    (∀ b ∈ [104, 47, 101], b < 256) ∧
      ('/' ∉ (url_encode_key [104, 47, 101]).data ∧
        percent_decode (url_encode_key [104, 47, 101]).data = some [104, 47, 101]) :=
  ⟨by decide, url_encode_key_roundtrip [104, 47, 101] (by decide)⟩

end Wrangler
